import Mathlib

/-!
Verification development for the DTS language-service core (dts-lsp).

Shallow embedding of:
- the property-type enumeration and value-profile classification
  (src/server/src/dtsTypes/types.ts),
- the `PropertyNodeType.validateProperty` / `validate` dispatch,
- `ContextAware.resolvePath` and `ContextAware.reportLabelIssues`
  (src/unnamed/part_000, the ContextAware class),
- `Property.replacedIssues` and the property override chain,
- the `interrupts-extended` additional type check
  (src/server/src/dtsTypes/standardTypes/interruptsExtended.ts),
- the `ContextAware.process` missing-parse guard.

TypeScript `undefined`/`null` is modelled with `Option`; a JavaScript
runtime TypeError (dereference of `undefined`) is modelled by returning
`none` from the embedding of the enclosing function.
-/

namespace DtsLsp

/-- Enumeration `PropetyType` from src/server/src/dtsTypes/types.ts
(the source spells it without the `r`). -/
inductive PropetyType where
  | EMPTY
  | U32
  | U64
  | STRING
  | PROP_ENCODED_ARRAY
  | STRINGLIST
  | BYTESTRING
  | UNKNOWN
deriving DecidableEq, Repr

/-- The `StandardTypeIssue` enumeration members used by the embedded code
(src/server/src/types.ts, listed in spec section 7). -/
inductive StandardTypeIssue where
  | REQUIRED
  | OMITTED
  | EXPECTED_EMPTY
  | EXPECTED_STRING
  | EXPECTED_STRINGLIST
  | EXPECTED_U32
  | EXPECTED_U64
  | EXPECTED_PROP_ENCODED_ARRAY
  | EXPECTED_ONE
  | EXPECTED_COMPOSITE_LENGTH
  | EXPECTED_ENUM
  | IGNORED
  | PROPERTY_REQUIRES_OTHER_PROPERTY_IN_NODE
  | INTERRUPTS_PARENT_NODE_NOT_FOUND
  | INTERRUPTS_VALUE_CELL_MISS_MATCH
deriving DecidableEq, Repr

/-- The `ContextIssues` enumeration (src/server/src/types.ts, spec section 7). -/
inductive ContextIssues where
  | DUPLICATE_NODE_NAME
  | DUPLICATE_PROPERTY_NAME
  | NODE_DOES_NOT_EXIST
  | PROPERTY_DOES_NOT_EXIST
  | UNABLE_TO_RESOLVE_CHILD_NODE
  | LABEL_ALREADY_IN_USE
deriving DecidableEq, Repr

/-- vscode-languageserver `DiagnosticSeverity`. -/
inductive DiagnosticSeverity where
  | Error
  | Warning
  | Information
  | Hint
deriving DecidableEq, Repr

/-- vscode-languageserver `DiagnosticTag`. -/
inductive DiagnosticTag where
  | Unnecessary
  | Deprecated
deriving DecidableEq, Repr

/-- The `Issue` record (src/server/src/types.ts): issue kinds, the AST
element the diagnostic is attached to, severity, linked ranges, tags and
message template arguments.  `astElement` is an `Option` because the code
can pass `orderdTree[0]` of an empty list; `tags` distinguishes an
explicit `[]` argument from the `undefined` default of `genIssue`. -/
structure Issue (κ : Type) (α : Type) where
  issues : List κ
  astElement : Option α
  severity : DiagnosticSeverity
  linkedTo : List α
  tags : Option (List DiagnosticTag)
  templateStrings : List String
deriving DecidableEq, Repr

/-! ## AST property values (spec section 3.2, src/server/src/ast/dtc/values) -/

/-- The possible inner values of a `PropertyValue` (`StringValue`,
`ArrayValues`, `LabelRef`, `NodePathRef`, byte strings).  For a
`StringValue`, `raw` is the source lexeme including its surrounding
quotes (the enum check in types.ts matches it against a quoted pattern).
For a `LabelRef`, `value` is the referenced label text (may be null).
Cell contents are carried as natural numbers. -/
inductive AllValueType where
  | stringValue (raw : String)
  | arrayValues (cells : List Nat)
  | labelRef (value : Option String)
  | nodePathRef
  | byteString
deriving DecidableEq, Repr

/-- `PropertyValue` wrapper: its `.value` member may be null. -/
structure PropertyValue where
  value : Option AllValueType
deriving DecidableEq, Repr

/-- `PropertyValues` (the `values` node of a `DtcProperty`): an ordered
list whose entries may individually be null. -/
structure PropertyValues where
  values : List (Option PropertyValue)
deriving DecidableEq, Repr

/-- The `DtcProperty` AST node: an optional property name and an optional
values list. -/
structure DtcProperty where
  propertyName : Option String
  values : Option PropertyValues
deriving DecidableEq, Repr

/-- Runtime `Property` (src/unnamed/part_000, `Property` class): wraps the
defining `DtcProperty` AST and an optional `replaces` chain back to the
prior definition of the same name. -/
inductive Property where
  | mk (ast : DtcProperty) (replaces : Option Property)

/-- Accessor for the `ast` field of `Property`. -/
def Property.ast : Property → DtcProperty
  | .mk a _ => a

/-- Accessor for the `replaces` field of `Property`. -/
def Property.replaces : Property → Option Property
  | .mk _ r => r

/-- `Property.name` getter: `this.ast.propertyName?.name ?? '[UNSET]'`. -/
def Property.name (p : Property) : String :=
  p.ast.propertyName.getD "[UNSET]"

/-! ## Value profile (types.ts lines 313-344) -/

/-- `propertyValueToPropetyType` (types.ts): classify one AST
`PropertyValue`.  A null entry is `UNKNOWN`; a string is `STRING`; a cell
array is `U32`/`U64`/`PROP_ENCODED_ARRAY` by cell count; a label or
node-path reference is `U32`; anything else (including a null inner
`.value`) falls through to `BYTESTRING`. -/
def propertyValueToPropetyType (value : Option PropertyValue) : PropetyType :=
  match value with
  | none => .UNKNOWN
  | some v =>
    match v.value with
    | some (.stringValue _) => .STRING
    | some (.arrayValues cells) =>
      if cells.length = 1 then .U32
      else if cells.length = 2 then .U64
      else .PROP_ENCODED_ARRAY
    | some (.labelRef _) => .U32
    | some .nodePathRef => .U32
    | _ => .BYTESTRING

/-- `propertyValuesToPropetyType` (types.ts): the value profile of a
property; a property without a values list yields `[EMPTY]`. -/
def propertyValuesToPropetyType (property : Property) : List PropetyType :=
  match property.ast.values with
  | some pv => pv.values.map propertyValueToPropetyType
  | none => [.EMPTY]

/-! ## PropertyNodeType and its validation (types.ts lines 29-278) -/

/-- `RequirementStatus` (types.ts line 33; the source spells "ommited"). -/
inductive RequirementStatus where
  | required
  | ommited
  | optional
deriving DecidableEq, Repr

/-- `TypeConfig` (types.ts line 35). -/
structure TypeConfig where
  types : List PropetyType
deriving DecidableEq, Repr

/-- Runtime node view used by the validator: its current properties.
Modelled from the spec: the `Node` class (src/server/src/context/node.ts)
is not under src/; the spec gives it insertion-ordered `properties`. -/
structure RNode where
  props : List Property

/-- Modelled from the spec: `Node.getProperty` (context/node.ts is not
under src/).  Override semantics are last-wins, so the property returned
for a name is the most recently added one of that name. -/
def RNode.getProperty (n : RNode) (name : String) : Option Property :=
  n.props.reverse.find? (fun p => p.name = name)

/-- Identity of the AST elements a validator diagnostic can point at,
relative to the property being validated: the property itself, its
`values` node, `values.values[i]`, `values.values[i].value`, or the i-th
entry of `runtime.getOrderedNodeAst(node)`. -/
inductive AstElem where
  | propertyAst
  | valuesAst
  | valueAt (i : Nat)
  | innerValueAt (i : Nat)
  | nodeAst (i : Nat)
deriving DecidableEq, Repr

/-- The `name` of a `PropertyNodeType`: a literal string or a pattern
(`RegExp` modelled as its match predicate). -/
inductive PropName where
  | str (s : String)
  | pattern (test : String → Bool)

/-- `PropertyNodeType` (types.ts line 36), with the constructor's
normalisations applied: `required` is stored as a function of the node,
and the `values`/`def` constructor arguments are kept so the `values`
method can be evaluated per call (type parameter `T` instantiated at
`String`, which is what the enum check compares against). -/
structure PropertyNodeType where
  name : PropName
  type : List TypeConfig
  required : RNode → RequirementStatus
  defVal : Option String
  valuesArg : (List String) ⊕ (Property → List String)
  additionalTypeCheck : Option (Property → List (Issue StandardTypeIssue AstElem))
  list : Bool

/-- The `values` method produced by the `PropertyNodeType` constructor:
for a plain list argument it is
`() => def && values.indexOf(def) === -1 ? [def, ...values] : values`
(note `def` must be truthy, i.e. a non-empty string, to be prepended);
a function argument is used as-is. -/
def PropertyNodeType.valuesFn (pt : PropertyNodeType) (property : Property) : List String :=
  match pt.valuesArg with
  | .inl vs =>
    match pt.defVal with
    | some d => if d ≠ "" ∧ d ∉ vs then d :: vs else vs
    | none => vs
  | .inr f => f property

/-- `property.ast.values?.values[0]?.value` — the inner value of the first
property value, when the values list, its first entry and that entry's
`.value` member are all present. -/
def firstInnerValue (property : Property) : Option AllValueType :=
  match property.ast.values with
  | none => none
  | some pv =>
    match pv.values[0]? with
    | some (some v) => v.value
    | _ => none

/-- AST identity of `property.ast.values?.values[0]?.value` (none when the
chain is undefined or null). -/
def firstInnerAst (property : Property) : Option AstElem :=
  (firstInnerValue property).map (fun _ => .innerValueAt 0)

/-- `property.ast.values ?? property.ast`. -/
def valuesAstOr (property : Property) : AstElem :=
  match property.ast.values with
  | some _ => .valuesAst
  | none => .propertyAst

/-- `property.ast.values?.values[i] ?? property.ast` (a null or missing
entry falls back to the property AST). -/
def positionalAstAt (property : Property) (i : Nat) : AstElem :=
  match property.ast.values with
  | some pv =>
    match pv.values[i]? with
    | some (some _) => .valueAt i
    | _ => .propertyAst
  | none => .propertyAst

/-- The switch inside `checkType` (types.ts lines 129-150): the
`EXPECTED_*` issue kind corresponding to an expected type; `BYTESTRING`
and `UNKNOWN` have no case and contribute nothing. -/
def expectedKindOf (tt : PropetyType) : Option StandardTypeIssue :=
  match tt with
  | .EMPTY => some .EXPECTED_EMPTY
  | .STRING => some .EXPECTED_STRING
  | .STRINGLIST => some .EXPECTED_STRINGLIST
  | .U32 => some .EXPECTED_U32
  | .U64 => some .EXPECTED_U64
  | .PROP_ENCODED_ARRAY => some .EXPECTED_PROP_ENCODED_ARRAY
  | .BYTESTRING => none
  | .UNKNOWN => none

/-- The `typeIsValid` expression of `checkType` (types.ts lines 120-125). -/
def typeIsValid (expected : List PropetyType) (type : PropetyType) : Bool :=
  expected.any (fun tt => tt == type) ||
    (expected.any (fun tt => tt == .STRINGLIST) &&
      (type == .STRING || type == .STRINGLIST)) ||
    (expected.any (fun tt => tt == .PROP_ENCODED_ARRAY) &&
      (type == .U32 || type == .U64))

/-- The `checkType` closure (types.ts lines 113-165): if the value type is
not valid for the expected set, emit one diagnostic whose kinds are the
`EXPECTED_*` images of the expected types (nothing at all when that list
is empty).  `ast ??= property.ast` supplies the fallback AST element. -/
def checkType (property : Property) (expected : List PropetyType)
    (type : PropetyType) (ast : Option AstElem) :
    List (Issue StandardTypeIssue AstElem) :=
  let astElem := ast.getD .propertyAst
  if typeIsValid expected type then []
  else
    let issue := expected.filterMap expectedKindOf
    if issue.length ≠ 0 then
      [⟨issue, some astElem, .Error, [], some [], [property.name]⟩]
    else []

/-- The composite branch body (types.ts lines 181-191): every position is
compared against `type[0].types` (the `// TODO Check` line in the source)
and a failing position yields an `EXPECTED_STRINGLIST` issue at that
value, with `genIssue` defaults (severity Error, no tags). -/
def compositePositionalIssues (t0 : TypeConfig) (propTypes : List PropetyType)
    (property : Property) : List (Issue StandardTypeIssue AstElem) :=
  propTypes.enum.filterMap (fun p =>
    if t0.types.all (fun tt => tt ≠ p.2) then
      some ⟨[.EXPECTED_STRINGLIST], some (positionalAstAt property p.1), .Error,
        [], none, []⟩
    else none)

/-- `currentValue.value` of the enum check (types.ts lines 239-243):
defined when the first inner value is a `StringValue` (its raw lexeme)
or a `LabelRef` carrying a label text; every other case makes the
JavaScript `currentValue.value.match(...)` dereference throw, modelled
as `none`. -/
def enumCurrentString (property : Property) : Option String :=
  match firstInnerValue property with
  | some (.stringValue raw) => some raw
  | some (.labelRef (some s)) => some s
  | _ => none

/-- The regular expression match of the enum check:
`currentValue.value.match(^["']v["']$)` holds exactly when the raw value
is `v` surrounded by double or single quotes (enum entries contain no
regex metacharacters). -/
def stringMatchesEnum (s v : String) : Bool :=
  s == "\"" ++ v ++ "\"" || s == "'" ++ v ++ "'"

/-- The `EXPECTED_ENUM` template argument:
`values.map(v => 'v').join(" or ")`. -/
def enumTemplate (vs : List String) : String :=
  String.intercalate " or " (vs.map (fun v => "'" ++ v ++ "'"))

/-- The single-slot type checks of `validateProperty` (types.ts lines
194-230), before the additional/enum phase.  `Array.prototype.some` with
a void-returning callback visits every element, so the STRINGLIST and
list branches check every profile entry. -/
def singleSlotIssues (pt : PropertyNodeType) (t0 : TypeConfig)
    (property : Property) (propTypes : List PropetyType) :
    List (Issue StandardTypeIssue AstElem) :=
  if t0.types.any (fun tt => tt == PropetyType.STRINGLIST) then
    propTypes.flatMap (fun t =>
      checkType property [.STRINGLIST] t (firstInnerAst property))
  else if pt.list then
    propTypes.flatMap (fun t =>
      checkType property t0.types t (firstInnerAst property))
  else if propTypes.length > 1 ∧ t0.types.any (fun tt => tt ≠ PropetyType.EMPTY) then
    [⟨[.EXPECTED_ONE], some (valuesAstOr property), .Error, [], some [],
      [property.name]⟩]
  else if h : propTypes.length = 1 then
    checkType property t0.types (propTypes.get ⟨0, by omega⟩)
      (firstInnerAst property)
  else []

/-- The single-slot branch of `validateProperty` including the
additional-check and enum phase (types.ts lines 232-262).  When no type
issue was produced, the code runs `additionalTypeCheck` and then, for an
enum-valued STRING slot, dereferences
`property.ast.values?.values[0]?.value` unconditionally — `none` models
the TypeError thrown when that value is absent or has no string
`.value`. -/
def singleSlotResult (pt : PropertyNodeType) (t0 : TypeConfig)
    (property : Property) (propTypes : List PropetyType) :
    Option (List (Issue StandardTypeIssue AstElem)) :=
  let issues := singleSlotIssues pt t0 property propTypes
  if issues.length = 0 then
    let issues := issues ++
      ((pt.additionalTypeCheck.map (fun f => f property)).getD [])
    if (pt.valuesFn property).length ≠ 0 ∧
        t0.types.any (fun tt => tt == PropetyType.STRING) then
      match enumCurrentString property with
      | none => none
      | some s =>
        if ¬ (pt.valuesFn property).any (fun v => stringMatchesEnum s v) then
          some (issues ++
            [⟨[.EXPECTED_ENUM], some ((firstInnerAst property).getD .propertyAst),
              .Error, [], some [], [enumTemplate (pt.valuesFn property)]⟩])
        else some issues
    else some issues
  else some issues

/-- `PropertyNodeType.validateProperty` (types.ts lines 74-266).
`orderedTree` stands for `runtime.getOrderedNodeAst(node)`.  The result is
`none` when the JavaScript code would throw (absent slot `type[0]`, or the
enum check dereferencing an absent/non-string first value), otherwise the
produced diagnostic list. -/
def validateProperty (pt : PropertyNodeType) (node : RNode)
    (orderedTree : List AstElem) (propertyName : String)
    (property : Option Property) :
    Option (List (Issue StandardTypeIssue AstElem)) :=
  match property with
  | none =>
    if pt.required node = .required then
      some [⟨[.REQUIRED], orderedTree.head?, .Error, orderedTree.drop 1,
        some [], [propertyName]⟩]
    else some []
  | some property =>
    if pt.required node = .ommited then
      some [⟨[.OMITTED], some .propertyAst, .Error, [], some [],
        [propertyName]⟩]
    else
      let propTypes := propertyValuesToPropetyType property
      if pt.type.length > 1 then
        if ¬ pt.list ∧ pt.type.length ≠ propTypes.length then
          some [⟨[.EXPECTED_COMPOSITE_LENGTH], some (valuesAstOr property),
            .Error, [], some [], [propertyName, toString pt.type.length]⟩]
        else
          match pt.type[0]? with
          | some t0 => some (compositePositionalIssues t0 propTypes property)
          | none => none
      else
        match pt.type[0]? with
        | some t0 => singleSlotResult pt t0 property propTypes
        | none => none

/-- `PropertyNodeType.validate` (types.ts lines 268-278): a literal name
uses `node.getProperty`; a pattern validates every matching property and
concatenates (a thrown TypeError in any of them propagates, i.e. `none`). -/
def PropertyNodeType.validate (pt : PropertyNodeType) (node : RNode)
    (orderedTree : List AstElem) :
    Option (List (Issue StandardTypeIssue AstElem)) :=
  match pt.name with
  | .str s => validateProperty pt node orderedTree s (node.getProperty s)
  | .pattern f =>
    (node.props.filter (fun p => f p.name)).foldl
      (fun acc p =>
        match acc, validateProperty pt node orderedTree p.name (some p) with
        | some l₁, some l₂ => some (l₁ ++ l₂)
        | _, _ => none)
      (some [])

/-! ## ContextAware.resolvePath (src/unnamed/part_000 lines 269-300) -/

/-- Parent of a `LabelAssign` as `resolvePath` inspects it: a
`DtcChildNode` with an optional known absolute `path`, a `DtcRefNode`
with its `labelReferance?.label?.value` and `pathName`, or anything
else. -/
inductive LabelParent where
  | childNode (path : Option (List String))
  | refNode (refValue : Option String) (pathName : String)
  | other
deriving DecidableEq, Repr

/-- One entry of `rootNode.allDescendantsLabels`: the label's own text and
its parent AST node. -/
structure LabelEntry where
  text : String
  parent : LabelParent
deriving DecidableEq, Repr

/-- Environment of `resolvePath`.  Modelled from the spec:
`Node.allDescendantsLabels` and `Node.getChild(..).labels`
(src/server/src/context/node.ts is not under src/) are abstracted as the
document-plus-include-ordered label list and the label texts attached to
the runtime node at a path (empty when no node exists there). -/
structure ResolveEnv where
  allLabels : List LabelEntry
  nodeLabelsAt : List String → List String

/-- JavaScript `s.startsWith(pre)`, modelled on the character list (which
the Lean kernel can evaluate, unlike the byte-indexed core primitive). -/
def startsWithStr (s pre : String) : Bool :=
  pre.data.isPrefixOf s.data

/-- The first `find` of `resolvePath`: a label whose parent is a
`DtcChildNode` with a known path such that the runtime node at that path
carries the target label among its labels; yields that parent's path. -/
def childNodeCand (env : ResolveEnv) (target : String) :
    LabelEntry → Option (List String)
  | ⟨_, .childNode (some p)⟩ =>
    if (env.nodeLabelsAt p).contains target then some p else none
  | _ => none

/-- The second `find` of `resolvePath`: a label whose parent is a
`DtcRefNode` whose own label reference equals the target; yields the
reference value and the ref node's `pathName`. -/
def refNodeCand (target : String) :
    LabelEntry → Option (String × String)
  | ⟨_, .refNode (some r) pn⟩ => if r = target then some (r, pn) else none
  | _ => none

/-- `ContextAware.resolvePath` (part_000 lines 269-300), fuelled because
the JavaScript recursion need not terminate (a ref node whose `pathName`
leads back to itself); fuel exhaustion is `none`.  An empty segment list
would make `path?.[0].startsWith` throw and is also modelled as `none`.
After the second find the source re-checks that the ref node's label
value is truthy, i.e. the target text is non-empty. -/
def resolvePath (env : ResolveEnv) : Nat → List String → Option (List String)
  | 0, _ => none
  | _, [] => none
  | fuel + 1, seg :: rest =>
    if ¬ startsWithStr seg "&" then some (seg :: rest)
    else
      let target := seg.drop 1
      match env.allLabels.findSome? (childNodeCand env target) with
      | some p => resolvePath env fuel (p ++ rest)
      | none =>
        match env.allLabels.findSome? (refNodeCand target) with
        | some pr => if target ≠ "" then resolvePath env fuel [pr.2] else none
        | none => none

/-- Modelled from the spec: the claim's description of `resolvePath`, for
comparison with the source embedding above — "find a LabelAssign with
matching text whose parent is a DtcChildNode with a known absolute path,
and recurse with that path followed by the remaining segments; else find
one whose parent is a DtcRefNode and recurse with that ref node's own
path; else return undefined". -/
def resolvePathSpec (env : ResolveEnv) : Nat → List String → Option (List String)
  | 0, _ => none
  | _, [] => none
  | fuel + 1, seg :: rest =>
    if ¬ startsWithStr seg "&" then some (seg :: rest)
    else
      let target := seg.drop 1
      match env.allLabels.findSome? (fun l =>
          match l.parent with
          | .childNode (some p) => if l.text = target then some p else none
          | _ => none) with
      | some p => resolvePathSpec env fuel (p ++ rest)
      | none =>
        match env.allLabels.findSome? (fun l =>
            match l.parent with
            | .refNode _ pn => if l.text = target then some pn else none
            | _ => none) with
        | some pn => resolvePathSpec env fuel [pn]
        | none => none

/-! ## ContextAware.reportLabelIssues (part_000 lines 63-108) -/

/-- A `LabelAssign` AST node: an identity and its label text. -/
structure LabelAssign where
  id : Nat
  label : String
deriving DecidableEq, Repr

/-- The owner a mapped label points at: a runtime `Node` or a `Property`
(identified by id; JavaScript `===` is identity equality). -/
inductive LabelOwner where
  | node (id : Nat)
  | prop (id : Nat)
deriving DecidableEq, Repr

/-- One entry of `rootNode.allDescendantsLabelsMapped` (modelled from the
spec; the `Node` class is not under src/): a label assignment and its
owner, which may be null. -/
structure LabelMapItem where
  label : LabelAssign
  owner : Option LabelOwner
deriving DecidableEq, Repr

/-- Insert one item into the text-keyed group list, preserving JavaScript
`Map` insertion order of first-seen keys. -/
def addToGroups (acc : List (String × List LabelMapItem)) (item : LabelMapItem) :
    List (String × List LabelMapItem) :=
  match acc with
  | [] => [(item.label.label, [item])]
  | (k, g) :: rest =>
    if k = item.label.label then (k, g ++ [item]) :: rest
    else (k, g) :: addToGroups rest item

/-- The `lablesUsed` map of `reportLabelIssues`, as an insertion-ordered
association list of label text to its items. -/
def groupLabels (items : List LabelMapItem) : List (String × List LabelMapItem) :=
  items.foldl addToGroups []

/-- `o.owner instanceof Node`. -/
def isNodeOwner (o : Option LabelOwner) : Bool :=
  match o with
  | some (.node _) => true
  | _ => false

/-- The `allSameOwner` constant of `reportLabelIssues` (part_000 lines
86-88): every owner compared with `===` against the owner of the first
item whose owner is a `Node` (`firstLabeledNode`); when no item has a
`Node` owner, the comparison against `undefined` is false for every item
of a non-empty group, hence `false` here. -/
def allSameOwnerB (group : List LabelMapItem) : Bool :=
  match group.find? (fun o => isNodeOwner o.owner) with
  | some f => group.all (fun o => o.owner == f.owner)
  | none => false

/-- The per-group body of `reportLabelIssues` (part_000 lines 82-106):
for a group of more than one item, if not all owners match
`firstLabeledNode`'s owner (`!allSameOwner || !firstLabeledNode`), one
`LABEL_ALREADY_IN_USE` error is placed on the last label of the group
with all earlier labels of the group linked and the last label's text as
template argument. -/
def groupLabelIssues (group : List LabelMapItem) :
    List (Issue ContextIssues LabelAssign) :=
  if group.length > 1 then
    if ¬ allSameOwnerB group = true ∨
        group.find? (fun o => isNodeOwner o.owner) = none then
      match group.getLast? with
      | some lastI =>
        [⟨[.LABEL_ALREADY_IN_USE], some lastI.label, .Error,
          group.dropLast.map (fun o => o.label), none, [lastI.label.label]⟩]
      | none => []
    else []
  else []

/-- `ContextAware.reportLabelIssues` (part_000 lines 63-108): group all
mapped labels by text and emit the per-group issues in key insertion
order. -/
def reportLabelIssues (items : List LabelMapItem) :
    List (Issue ContextIssues LabelAssign) :=
  (groupLabels items).flatMap (fun g => groupLabelIssues g.2)

/-! ## Property override chain (Property class, part of src blob;
ContextAware.processDtcProperty, part_000 lines 219-225) -/

/-- `Property.replacedIssues` (Property class, `replacedIssues` getter):
the issues of the replaced chain followed by one
`DUPLICATE_PROPERTY_NAME` hint on the replaced definition's AST, linking
the replacing definition, tagged `Unnecessary`, with the replacing
property's name as template argument. -/
def Property.replacedIssues : Property → List (Issue ContextIssues DtcProperty)
  | .mk _ none => []
  | .mk ast (some prev) =>
    prev.replacedIssues ++
      [⟨[.DUPLICATE_PROPERTY_NAME], some prev.ast, .Hint, [ast],
        some [.Unnecessary], [(Property.mk ast (some prev)).name]⟩]

/-- The (replacer, replaced) pairs of a property's override chain, oldest
first; each pair is one step of the `replaces` chain. -/
def Property.chainPairs : Property → List (Property × Property)
  | .mk _ none => []
  | .mk ast (some prev) =>
    prev.chainPairs ++ [(Property.mk ast (some prev), prev)]

/-- Modelled from the spec: `Node.addProperty`
(src/server/src/context/node.ts is not under src/): append a `Property`
for the new definition; if a property with that name already exists, link
the new one's `replaces` to the previous one (override is last-wins, so
the previous entry is superseded in the list). -/
def RNode.addProperty (n : RNode) (ast : DtcProperty) : RNode :=
  let name := ast.propertyName.getD "[UNSET]"
  let prev := n.props.reverse.find? (fun p => p.name = name)
  ⟨n.props.filter (fun p => p.name ≠ name) ++ [Property.mk ast prev]⟩

/-- `ContextAware.processDtcProperty` (part_000 lines 219-225), restricted
to its effect on the runtime node: a property AST with a truthy name is
added to the node. -/
def processDtcProperty (element : DtcProperty) (runtimeNodeParent : RNode) : RNode :=
  match element.propertyName with
  | some nm => if nm ≠ "" then runtimeNodeParent.addProperty element else runtimeNodeParent
  | none => runtimeNodeParent

/-! ## interrupts-extended additional check
(src/server/src/dtsTypes/standardTypes/interruptsExtended.ts lines 73-137) -/

/-- AST identity for diagnostics of the interrupts-extended check: the
i-th flattened value, the property itself, the coexisting `interrupts` /
`interrupt-parent` property ASTs, a resolved node's `#interrupt-cells`
property AST, or a resolved node's name/label-ref elements. -/
inductive IEAst where
  | flatValueAt (i : Nat)
  | propertyAst
  | interruptsAst
  | interruptParentAst
  | cellsPropertyAst (path : List String)
  | nodeRef (path : List String) (j : Nat)
deriving DecidableEq, Repr

/-- A flattened number value of the property (an element of
`flatNumberValues(property.ast.values)`), identified by index; its
payload is opaque to the walk. -/
structure IEVal where
  idx : Nat
deriving DecidableEq, Repr

/-- What `resolvePhandleNode` and `getInterruptInfo` yield for a resolved
interrupt parent.  Modelled from the spec: those helpers
(standardTypes/helpers.ts) are not under src/.  `cellsProperty = none`
means the node has no `#interrupt-cells` property; `some none` means the
property exists but its numeric value could not be read; `some (some c)`
is the cell count.  `refCount` is the length of `node.nodeNameOrLabelRef`
and `path` the node's runtime path. -/
structure IENode where
  cellsProperty : Option (Option Nat)
  refCount : Nat
  path : List String

/-- Environment of the walk: phandle resolution against the root node,
modelled from the spec as a partial map from flattened values to nodes. -/
structure IEEnv where
  resolve : IEVal → Option IENode

/-- The `while` loop of the interrupts-extended additional check
(interruptsExtended.ts lines 78-134): each tuple is a leading phandle
followed by `#interrupt-cells` cells of the resolved parent.  `i` is the
absolute index of the tuple head among the flattened values.  Each error
case returns immediately with its single issue; a present cells property
without a readable value ends the walk silently. -/
def ieWalk (env : IEEnv) (propName : String) :
    List IEVal → Nat → List (Issue StandardTypeIssue IEAst)
  | [], _ => []
  | v :: rest, i =>
    match env.resolve v with
    | none =>
      [⟨[.INTERRUPTS_PARENT_NODE_NOT_FOUND], some (.flatValueAt i), .Error,
        [], none, []⟩]
    | some n =>
      match n.cellsProperty with
      | none =>
        [⟨[.PROPERTY_REQUIRES_OTHER_PROPERTY_IN_NODE], some .propertyAst, .Error,
          (List.range n.refCount).map (fun j => .nodeRef n.path j), some [],
          [propName, "#interrupt-cells",
            "/" ++ String.intercalate "/" (n.path.drop 1)]⟩]
      | some none => []
      | some (some c) =>
        if c > rest.length then
          [⟨[.INTERRUPTS_VALUE_CELL_MISS_MATCH], some (.flatValueAt i), .Error,
            [.cellsPropertyAst n.path], some [], [propName, toString c]⟩]
        else ieWalk env propName (rest.drop c) (i + c + 1)
termination_by vs _ => vs.length
decreasing_by
  simp only [List.length_cons]
  have h := List.length_drop c rest
  omega

/-- The full `additionalTypeCheck` of interrupts-extended
(interruptsExtended.ts lines 35-137): IGNORED warnings for coexisting
`interrupts` / `interrupt-parent`, then — only when the flattened value
list is non-empty, otherwise everything accumulated so far is discarded —
the tuple walk. -/
def interruptsExtendedCheck (env : IEEnv) (hasInterrupts hasInterruptParent : Bool)
    (flatValues : List IEVal) : List (Issue StandardTypeIssue IEAst) :=
  let ignored :=
    (if hasInterrupts then
      [⟨[.IGNORED], some .interruptsAst, .Warning, [.propertyAst], some [],
        ["interrupts", "is ignored when 'interrupts-extended' is used"]⟩]
     else []) ++
    (if hasInterruptParent then
      [⟨[.IGNORED], some .interruptParentAst, .Warning, [.propertyAst], some [],
        ["interrupt-parent", "is ignored when 'interrupts-extended' is used"]⟩]
     else [])
  if flatValues.length = 0 then []
  else ignored ++ ieWalk env "interrupts-extended" flatValues 0

/-! ## ContextAware.process missing-parse guard (part_000 lines 110-124) -/

/-- Minimal runtime node for the merged tree shape: name, children,
properties and contributing definitions.  Modelled from the spec
(`Node`, context/node.ts, is not under src/): a fresh node has no
children, properties or definitions. -/
inductive CNode where
  | mk (name : String) (children : List CNode) (properties : List Property)
      (definitions : List Nat)

/-- The observable result of building a context: the root node and the
context issues. -/
structure ContextResult where
  rootNode : CNode
  issues : List (Issue ContextIssues LabelAssign)

/-- `ContextAware.process` (part_000 lines 110-124) together with the
constructor: map every file of `fileMap` through the parse cache
(`astMap`, modelled from the spec as a partial map); if any file has no
cached parse, return the fresh root `Node('/')` with no issues — no file
is merged and no diagnostic is emitted.  Merging of fully-cached file
lists is the rest of the class, abstracted here as `mergeAll` (the
theorems below hold for every such function). -/
def contextProcess {τ : Type} (fileMap : List String)
    (cache : String → Option τ) (mergeAll : List τ → ContextResult) :
    ContextResult :=
  let ast := fileMap.map (fun file => cache file)
  if ast.any (fun t => t.isNone) then ⟨CNode.mk "/" [] [] [], []⟩
  else mergeAll (ast.filterMap id)

/-! ## Theorems -/

/-- C1: the validator's value profile classifies each AST `PropertyValue`
as: a string literal as STRING, a cell array with exactly one cell as
U32, with exactly two cells as U64, with more cells as
PROP_ENCODED_ARRAY, a label reference or node-path reference as U32; a
property with no values yields the one-element profile [EMPTY]; and the
profile of a property with values is the element-wise classification. -/
theorem c1_value_profile :
    (∀ s, propertyValueToPropetyType (some ⟨some (.stringValue s)⟩) = .STRING)
    ∧ (∀ c : Nat, propertyValueToPropetyType (some ⟨some (.arrayValues [c])⟩) = .U32)
    ∧ (∀ c d : Nat,
        propertyValueToPropetyType (some ⟨some (.arrayValues [c, d])⟩) = .U64)
    ∧ (∀ cells : List Nat, 2 < cells.length →
        propertyValueToPropetyType (some ⟨some (.arrayValues cells)⟩) =
          .PROP_ENCODED_ARRAY)
    ∧ (∀ l, propertyValueToPropetyType (some ⟨some (.labelRef l)⟩) = .U32)
    ∧ propertyValueToPropetyType (some ⟨some .nodePathRef⟩) = .U32
    ∧ (∀ p : Property, p.ast.values = none →
        propertyValuesToPropetyType p = [.EMPTY])
    ∧ (∀ p : Property, ∀ pv, p.ast.values = some pv →
        propertyValuesToPropetyType p = pv.values.map propertyValueToPropetyType) := by
  refine ⟨fun s => rfl, fun c => rfl, fun c d => rfl, ?_, fun l => rfl, rfl, ?_, ?_⟩
  · intro cells h
    simp only [propertyValueToPropetyType]
    rw [if_neg (by omega), if_neg (by omega)]
  · intro p h
    simp [propertyValuesToPropetyType, h]
  · intro p pv h
    simp [propertyValuesToPropetyType, h]

/-- C1 witness: the hypotheses of `c1_value_profile` discharged at a
three-cell array. -/
theorem c1_value_profile_witness :
    2 < ([1, 2, 3] : List Nat).length ∧
    propertyValueToPropetyType (some ⟨some (.arrayValues [1, 2, 3])⟩) =
      .PROP_ENCODED_ARRAY :=
  ⟨by decide, c1_value_profile.2.2.2.1 [1, 2, 3] (by decide)⟩

/-- A property AST named "p" with no values, used as a probe. -/
def probeProperty : Property := .mk ⟨some "p", none⟩ none

/-- C2 counterexample: a slot consisting of `BYTESTRING` does not accept
a `STRING` value, yet `checkType` emits no diagnostic at all — the
switch maps neither `BYTESTRING` nor `UNKNOWN` to an `EXPECTED_*` kind,
so the claim's "one diagnostic carrying an EXPECTED_* issue kind for
each expected type in the slot" fails. -/
theorem c2_expected_kinds_counterexample :
    typeIsValid [.BYTESTRING] .STRING = false ∧
    checkType probeProperty [.BYTESTRING] .STRING none = [] := by
  exact ⟨by decide, by rfl⟩

/-- C2 (amended): acceptance is exactly membership, or STRINGLIST
accepting STRING/STRINGLIST, or PROP_ENCODED_ARRAY accepting U32/U64;
a rejected value yields one diagnostic whose kinds are the `EXPECTED_*`
images of the slot's types, where only EMPTY, STRING, STRINGLIST, U32,
U64 and PROP_ENCODED_ARRAY have such an image — a slot whose types all
lack one produces no diagnostic. -/
theorem c2_check_type (p : Property) (expected : List PropetyType)
    (ty : PropetyType) (ast : Option AstElem) :
    (typeIsValid expected ty = true ↔
      (ty ∈ expected ∨
        (PropetyType.STRINGLIST ∈ expected ∧ (ty = .STRING ∨ ty = .STRINGLIST)) ∨
        (PropetyType.PROP_ENCODED_ARRAY ∈ expected ∧ (ty = .U32 ∨ ty = .U64))))
    ∧ (typeIsValid expected ty = true → checkType p expected ty ast = [])
    ∧ (typeIsValid expected ty = false → expected.filterMap expectedKindOf ≠ [] →
        checkType p expected ty ast =
          [⟨expected.filterMap expectedKindOf, some (ast.getD .propertyAst),
            .Error, [], some [], [p.name]⟩])
    ∧ (typeIsValid expected ty = false → expected.filterMap expectedKindOf = [] →
        checkType p expected ty ast = [])
    ∧ (∀ tt : PropetyType,
        (expectedKindOf tt).isNone ↔ (tt = .BYTESTRING ∨ tt = .UNKNOWN)) := by
  refine ⟨?_, ?_, ?_, ?_, ?_⟩
  · constructor
    · intro h
      simp only [typeIsValid, Bool.or_eq_true, Bool.and_eq_true,
        List.any_eq_true, beq_iff_eq] at h
      rcases h with (h | h) | h
      · obtain ⟨x, hx, he⟩ := h
        exact Or.inl (he ▸ hx)
      · obtain ⟨⟨x, hx, he⟩, hty⟩ := h
        refine Or.inr (Or.inl ⟨he ▸ hx, ?_⟩)
        rcases hty with h | h <;> simp_all
      · obtain ⟨⟨x, hx, he⟩, hty⟩ := h
        refine Or.inr (Or.inr ⟨he ▸ hx, ?_⟩)
        rcases hty with h | h <;> simp_all
    · intro h
      simp only [typeIsValid, Bool.or_eq_true, Bool.and_eq_true,
        List.any_eq_true, beq_iff_eq]
      rcases h with h | ⟨h, hty⟩ | ⟨h, hty⟩
      · exact Or.inl (Or.inl ⟨ty, h, rfl⟩)
      · refine Or.inl (Or.inr ⟨⟨_, h, rfl⟩, ?_⟩)
        rcases hty with h | h <;> simp [h]
      · refine Or.inr ⟨⟨_, h, rfl⟩, ?_⟩
        rcases hty with h | h <;> simp [h]
  · intro h
    simp [checkType, h]
  · intro h hne
    have hlen : (expected.filterMap expectedKindOf).length ≠ 0 := by
      simpa [List.length_eq_zero] using hne
    simp [checkType, h, hlen]
  · intro h hz
    simp [checkType, h, hz]
  · intro tt
    cases tt <;> simp [expectedKindOf]

/-- C2 witness: the amended theorem applied to a `U32` slot rejecting a
`STRING` value. -/
theorem c2_check_type_witness :
    typeIsValid [.U32] .STRING = false ∧
    checkType probeProperty [.U32] .STRING none =
      [⟨[.EXPECTED_U32], some .propertyAst, .Error, [], some [], ["p"]⟩] := by
  refine ⟨by decide, ?_⟩
  rw [(c2_check_type probeProperty [.U32] .STRING none).2.2.1 (by decide) (by decide)]
  rfl

/-- Property AST for C3: `x = "a", <5>;` — a string value then a one-cell
array. -/
def c3PropAst : DtcProperty :=
  ⟨some "x",
    some ⟨[some ⟨some (.stringValue "\"a\"")⟩, some ⟨some (.arrayValues [5])⟩]⟩⟩

/-- Binding for C3: composite typeSpec `[[STRING], [U32]]`, not a list. -/
def c3Binding : PropertyNodeType where
  name := .str "x"
  type := [⟨[.STRING]⟩, ⟨[.U32]⟩]
  required := fun _ => .optional
  defVal := none
  valuesArg := .inl []
  additionalTypeCheck := none
  list := false

/-- C3 (code bug): with typeSpec `[[STRING], [U32]]`, list=false and the
matching value profile `[STRING, U32]`, the spec requires position 1 to
be checked against typeSpec[1] = {U32} (which accepts U32, so no
diagnostic); the code instead compares every position against
typeSpec[0] and emits `EXPECTED_STRINGLIST` at position 1 (the
`// TODO Check` block of types.ts lines 181-191). -/
theorem c3_positional_check_bug :
    validateProperty c3Binding ⟨[Property.mk c3PropAst none]⟩ [] "x"
      (some (Property.mk c3PropAst none)) =
    some [⟨[.EXPECTED_STRINGLIST], some (.valueAt 1), .Error, [], none, []⟩] := by
  rfl

/-- Property AST for C5: property `x` present with no values at all. -/
def c5PropAst : DtcProperty := ⟨some "x", none⟩

/-- Binding for C5: a single STRING-or-EMPTY slot with an enumerated
value set. -/
def c5Binding : PropertyNodeType where
  name := .str "x"
  type := [⟨[.STRING, .EMPTY]⟩]
  required := fun _ => .optional
  defVal := none
  valuesArg := .inl ["a"]
  additionalTypeCheck := none
  list := false

/-- C5 (code bug): `PropertyNodeType.validate` is not total.  For a
binding with enumerated values and a STRING-accepting slot applied to a
property whose first value is absent, the type check passes (EMPTY is
accepted) and the enum check dereferences
`property.ast.values?.values[0]?.value` — which is `undefined` — so the
JavaScript code throws a TypeError instead of returning a diagnostic
list; the embedding returns `none` on exactly that path. -/
theorem c5_enum_check_crash :
    c5Binding.validate ⟨[Property.mk c5PropAst none]⟩ [] = none := by
  rfl

/-- C4: for a binding with a literal string name — required and absent
yields exactly one REQUIRED error diagnostic; omitted ("ommited" in the
source) and present yields exactly one OMITTED error diagnostic; absent
under optional or omitted yields no diagnostic. -/
theorem c4_required_and_omitted (pt : PropertyNodeType) (node : RNode)
    (orderedTree : List AstElem) (pn : String) (hname : pt.name = .str pn) :
    (node.getProperty pn = none → pt.required node = .required →
      pt.validate node orderedTree =
        some [⟨[.REQUIRED], orderedTree.head?, .Error, orderedTree.drop 1,
          some [], [pn]⟩])
    ∧ (∀ p, node.getProperty pn = some p → pt.required node = .ommited →
        pt.validate node orderedTree =
          some [⟨[.OMITTED], some .propertyAst, .Error, [], some [], [pn]⟩])
    ∧ (node.getProperty pn = none →
        (pt.required node = .optional ∨ pt.required node = .ommited) →
        pt.validate node orderedTree = some []) := by
  refine ⟨?_, ?_, ?_⟩
  · intro habs hreq
    simp [PropertyNodeType.validate, hname, habs, validateProperty, hreq]
  · intro p hp hreq
    simp [PropertyNodeType.validate, hname, hp, validateProperty, hreq]
  · intro habs hreq
    rcases hreq with h | h <;>
      simp [PropertyNodeType.validate, hname, habs, validateProperty, h]

/-- Binding for the C4 witness with `required = "required"`. -/
def c4BindingReq : PropertyNodeType where
  name := .str "p"
  type := [⟨[.U32]⟩]
  required := fun _ => .required
  defVal := none
  valuesArg := .inl []
  additionalTypeCheck := none
  list := false

/-- Binding for the C4 witness with `required = "ommited"`. -/
def c4BindingOmit : PropertyNodeType where
  name := .str "p"
  type := [⟨[.U32]⟩]
  required := fun _ => .ommited
  defVal := none
  valuesArg := .inl []
  additionalTypeCheck := none
  list := false

/-- C4 witness: the theorem applied to an empty node for the required
case and a node holding property `p` for the omitted case. -/
theorem c4_required_and_omitted_witness :
    (RNode.mk []).getProperty "p" = none ∧
    c4BindingReq.validate ⟨[]⟩ [] =
      some [⟨[.REQUIRED], none, .Error, [], some [], ["p"]⟩] ∧
    c4BindingOmit.validate ⟨[Property.mk ⟨some "p", none⟩ none]⟩ [] =
      some [⟨[.OMITTED], some .propertyAst, .Error, [], some [], ["p"]⟩] := by
  refine ⟨rfl, ?_, ?_⟩
  · exact (c4_required_and_omitted c4BindingReq ⟨[]⟩ [] "p" rfl).1 rfl rfl
  · exact (c4_required_and_omitted c4BindingOmit
      ⟨[Property.mk ⟨some "p", none⟩ none]⟩ [] "p" rfl).2.1
      (Property.mk ⟨some "p", none⟩ none) rfl rfl

/-- Resolution environment with a duplicate label `B`: `A` labels the
child node at `/n1`; a ref node `&A` carries label `B` (so the runtime
node at `/n1` carries both `A` and `B`); a later child node at `/n2` also
carries label `B`.  Document order of the label assignments is `A`, then
`B` on the ref node, then `B` on `/n2`. -/
def env6 : ResolveEnv where
  allLabels :=
    [⟨"A", .childNode (some ["/", "n1"])⟩,
     ⟨"B", .refNode (some "A") "&A"⟩,
     ⟨"B", .childNode (some ["/", "n2"])⟩]
  nodeLabelsAt := fun p =>
    if p = ["/", "n1"] then ["A", "B"]
    else if p = ["/", "n2"] then ["B"]
    else []

/-- C6 counterexample: the code resolves `&B` through the FIRST label
assignment whose child-node parent's runtime node carries `B` (label `A`
on `/n1`), yielding `/n1`; the claimed procedure — the first LabelAssign
with matching text whose parent is a DtcChildNode — picks the `B`
assignment on `/n2` and yields `/n2`. -/
theorem c6_resolve_path_counterexample :
    resolvePath env6 3 ["&B"] = some ["/", "n1"] ∧
    resolvePathSpec env6 3 ["&B"] = some ["/", "n2"] :=
  ⟨by rfl, by rfl⟩

/-- C6 (amended): a first segment not starting with `&` is returned
unchanged (with the rest); otherwise the first label assignment whose
parent is a DtcChildNode with a known absolute path whose runtime node
carries the leading label selects that path, recursing with it followed
by the remaining segments; failing that, the first label assignment
whose parent is a DtcRefNode whose own label reference equals the
(non-empty) leading label selects that ref node, recursing with just its
path name; with no match the result is undefined.  The last two
conjuncts characterise the candidate predicates of the two finds. -/
theorem c6_resolve_path (env : ResolveEnv) (fuel : Nat) (seg : String)
    (rest : List String) :
    (¬ startsWithStr seg "&" = true →
      resolvePath env (fuel + 1) (seg :: rest) = some (seg :: rest))
    ∧ (∀ p, startsWithStr seg "&" = true →
        env.allLabels.findSome? (childNodeCand env (seg.drop 1)) = some p →
        resolvePath env (fuel + 1) (seg :: rest) =
          resolvePath env fuel (p ++ rest))
    ∧ (∀ r pn, startsWithStr seg "&" = true → seg.drop 1 ≠ "" →
        env.allLabels.findSome? (childNodeCand env (seg.drop 1)) = none →
        env.allLabels.findSome? (refNodeCand (seg.drop 1)) = some (r, pn) →
        resolvePath env (fuel + 1) (seg :: rest) = resolvePath env fuel [pn])
    ∧ (startsWithStr seg "&" = true →
        env.allLabels.findSome? (childNodeCand env (seg.drop 1)) = none →
        env.allLabels.findSome? (refNodeCand (seg.drop 1)) = none →
        resolvePath env (fuel + 1) (seg :: rest) = none)
    ∧ (∀ l p, childNodeCand env (seg.drop 1) l = some p →
        l.parent = .childNode (some p) ∧ (seg.drop 1) ∈ env.nodeLabelsAt p)
    ∧ (∀ l r pn, refNodeCand (seg.drop 1) l = some (r, pn) →
        l.parent = .refNode (some r) pn ∧ r = seg.drop 1) := by
  refine ⟨?_, ?_, ?_, ?_, ?_, ?_⟩
  · intro h
    simp [resolvePath, h]
  · intro p hs hc
    simp [resolvePath, hs, hc]
  · intro r pn hs hne hc hr
    simp [resolvePath, hs, hc, hr, hne]
  · intro hs hc hr
    simp [resolvePath, hs, hc, hr]
  · intro l p h
    obtain ⟨tx, parent⟩ := l
    rcases parent with po | ⟨rv, pn2⟩ | _
    · rcases po with _ | q
      · simp [childNodeCand] at h
      · simp only [childNodeCand] at h
        split at h
        next hc =>
          obtain rfl := Option.some.inj h
          exact ⟨rfl, by simpa using hc⟩
        next hc => simp at h
    · simp [childNodeCand] at h
    · simp [childNodeCand] at h
  · intro l r pn h
    obtain ⟨tx, parent⟩ := l
    rcases parent with po | ⟨rv, pn2⟩ | _
    · simp [refNodeCand] at h
    · rcases rv with _ | rq
      · simp [refNodeCand] at h
      · simp only [refNodeCand] at h
        split at h
        next he =>
          obtain ⟨h1, h2⟩ := Prod.mk.inj (Option.some.inj h)
          subst h1
          subst h2
          exact ⟨rfl, he⟩
        next he => simp at h
    · simp [refNodeCand] at h

/-- C6 witness: the child-node branch of the amended theorem discharged
at `env6` resolving `&B`. -/
theorem c6_resolve_path_witness :
    startsWithStr "&B" "&" = true ∧
    resolvePath env6 2 ["&B"] = resolvePath env6 1 (["/", "n1"] ++ []) :=
  ⟨by decide, (c6_resolve_path env6 1 "&B" []).2.1 ["/", "n1"] (by decide) (by rfl)⟩

/-- C7: every text group of more than one mapped label whose owners are
not all the same object produces exactly one LABEL_ALREADY_IN_USE error
for that group, placed on the last-seen label, with the earlier labels of
the group in linkedTo and the label text as template argument; that issue
is among the reported label issues. -/
theorem c7_label_already_in_use (items : List LabelMapItem) (k : String)
    (g : List LabelMapItem) (hmem : (k, g) ∈ groupLabels items)
    (hlen : 1 < g.length)
    (howners : ¬ ∀ a ∈ g, ∀ b ∈ g, a.owner = b.owner) :
    ∃ lastI, g.getLast? = some lastI ∧
      groupLabelIssues g =
        [⟨[.LABEL_ALREADY_IN_USE], some lastI.label, .Error,
          g.dropLast.map (fun o => o.label), none, [lastI.label.label]⟩] ∧
      (⟨[.LABEL_ALREADY_IN_USE], some lastI.label, .Error,
        g.dropLast.map (fun o => o.label), none, [lastI.label.label]⟩ :
          Issue ContextIssues LabelAssign) ∈ reportLabelIssues items := by
  have hne : g ≠ [] := by
    intro h
    rw [h] at hlen
    simp at hlen
  obtain ⟨lastI, hlast⟩ :=
    Option.isSome_iff_exists.mp (List.getLast?_isSome.mpr hne)
  have hfire : ¬ allSameOwnerB g = true ∨
      g.find? (fun o => isNodeOwner o.owner) = none := by
    cases hf : g.find? (fun o => isNodeOwner o.owner) with
    | none => exact Or.inr rfl
    | some f =>
      left
      unfold allSameOwnerB
      rw [hf]
      intro hall
      rw [List.all_eq_true] at hall
      apply howners
      intro a ha b hb
      have h1 := hall a ha
      have h2 := hall b hb
      rw [beq_iff_eq] at h1 h2
      rw [h1, h2]
  have key : groupLabelIssues g =
      [⟨[.LABEL_ALREADY_IN_USE], some lastI.label, .Error,
        g.dropLast.map (fun o => o.label), none, [lastI.label.label]⟩] := by
    unfold groupLabelIssues
    rw [if_pos hlen, if_pos hfire, hlast]
  refine ⟨lastI, hlast, key, ?_⟩
  unfold reportLabelIssues
  rw [List.mem_flatMap]
  exact ⟨(k, g), hmem, by rw [key]; exact List.mem_singleton.mpr rfl⟩

/-- Items for the C7 witness: two labels of the same text owned by two
different nodes. -/
def c7Items : List LabelMapItem :=
  [⟨⟨0, "x"⟩, some (.node 1)⟩, ⟨⟨1, "x"⟩, some (.node 2)⟩]

/-- C7 witness: the theorem discharged at two same-text labels with
distinct node owners. -/
theorem c7_label_already_in_use_witness :
    ∃ lastI, c7Items.getLast? = some lastI ∧
      groupLabelIssues c7Items =
        [⟨[.LABEL_ALREADY_IN_USE], some lastI.label, .Error,
          c7Items.dropLast.map (fun o => o.label), none, [lastI.label.label]⟩] ∧
      (⟨[.LABEL_ALREADY_IN_USE], some lastI.label, .Error,
        c7Items.dropLast.map (fun o => o.label), none, [lastI.label.label]⟩ :
          Issue ContextIssues LabelAssign) ∈ reportLabelIssues c7Items :=
  c7_label_already_in_use c7Items "x" c7Items (by decide) (by decide) (by decide)

/-- Every step of a property's `replaces` chain yields one
DUPLICATE_PROPERTY_NAME hint on the replaced definition's AST with the
replacing definition linked, the Unnecessary tag and the replacing
property's name. -/
theorem replacedIssues_eq_chainPairs (p : Property) :
    p.replacedIssues = p.chainPairs.map (fun q =>
      (⟨[.DUPLICATE_PROPERTY_NAME], some q.2.ast, .Hint, [q.1.ast],
        some [.Unnecessary], [q.1.name]⟩ : Issue ContextIssues DtcProperty)) :=
  match p with
  | .mk _ none => rfl
  | .mk a (some prev) => by
    rw [Property.replacedIssues, Property.chainPairs, List.map_append,
      replacedIssues_eq_chainPairs prev]
    rfl

/-- C8: merging a `DtcProperty` into a node that already holds a property
of the same name links the new property's `replaces` to the previous
definition; the new property's replaced issues end with one
DUPLICATE_PROPERTY_NAME hint on the previous AST, Unnecessary-tagged,
linking the replacing AST; and in general every earlier definition of
the chain yields exactly one such hint on its own AST with its replacer
linked. -/
theorem c8_duplicate_property_name (node : RNode) (ast : DtcProperty)
    (prev : Property) (nm : String) (hname : ast.propertyName = some nm)
    (hnm : nm ≠ "") (hprev : node.getProperty nm = some prev) :
    ((processDtcProperty ast node).getProperty nm =
      some (Property.mk ast (some prev)))
    ∧ (Property.mk ast (some prev)).replacedIssues =
        prev.replacedIssues ++
          [⟨[.DUPLICATE_PROPERTY_NAME], some prev.ast, .Hint, [ast],
            some [.Unnecessary], [nm]⟩]
    ∧ (∀ p : Property, p.replacedIssues = p.chainPairs.map (fun q =>
        ⟨[.DUPLICATE_PROPERTY_NAME], some q.2.ast, .Hint, [q.1.ast],
          some [.Unnecessary], [q.1.name]⟩)) := by
  refine ⟨?_, ?_, fun p => replacedIssues_eq_chainPairs p⟩
  · simp only [processDtcProperty, hname]
    rw [if_pos hnm]
    simp only [RNode.addProperty, hname, Option.getD_some]
    have hfind : node.props.reverse.find? (fun p => p.name = nm) = some prev :=
      hprev
    rw [hfind]
    unfold RNode.getProperty
    rw [List.reverse_append, List.reverse_singleton, List.singleton_append]
    rw [List.find?_cons_of_pos]
    simp [Property.name, Property.ast, hname]
  · rw [Property.replacedIssues]
    simp [Property.name, Property.ast, hname]

/-- The previous property for the C8 witness. -/
def c8PrevProp : Property := .mk ⟨some "q", none⟩ none

/-- The replacing property AST for the C8 witness. -/
def c8NewAst : DtcProperty := ⟨some "q", some ⟨[]⟩⟩

/-- C8 witness: the theorem discharged on a node already holding `q`. -/
theorem c8_duplicate_property_name_witness :
    ("q" : String) ≠ "" ∧
    (processDtcProperty c8NewAst ⟨[c8PrevProp]⟩).getProperty "q" =
      some (Property.mk c8NewAst (some c8PrevProp)) ∧
    (Property.mk c8NewAst (some c8PrevProp)).replacedIssues =
      [⟨[.DUPLICATE_PROPERTY_NAME], some c8PrevProp.ast, .Hint, [c8NewAst],
        some [.Unnecessary], ["q"]⟩] :=
  ⟨by decide,
    (c8_duplicate_property_name ⟨[c8PrevProp]⟩ c8NewAst c8PrevProp "q" rfl
      (by decide) rfl).1,
    by
      rw [(c8_duplicate_property_name ⟨[c8PrevProp]⟩ c8NewAst c8PrevProp "q" rfl
        (by decide) rfl).2.1]
      rfl⟩

/-- C9: the interrupts-extended walk treats the flattened values as
tuples of a leading phandle followed by `#interrupt-cells` cells of the
resolved parent; an unresolvable phandle yields
INTERRUPTS_PARENT_NODE_NOT_FOUND on that value, a resolved parent
without `#interrupt-cells` yields
PROPERTY_REQUIRES_OTHER_PROPERTY_IN_NODE on the property, a tuple with
fewer remaining cells than required yields
INTERRUPTS_VALUE_CELL_MISS_MATCH on the phandle value, and otherwise the
walk skips the tuple's cells. -/
theorem c9_interrupts_extended_walk (env : IEEnv) (propName : String)
    (v : IEVal) (rest : List IEVal) (i : Nat) :
    (env.resolve v = none →
      ieWalk env propName (v :: rest) i =
        [⟨[.INTERRUPTS_PARENT_NODE_NOT_FOUND], some (.flatValueAt i), .Error,
          [], none, []⟩])
    ∧ (∀ n, env.resolve v = some n → n.cellsProperty = none →
        ieWalk env propName (v :: rest) i =
          [⟨[.PROPERTY_REQUIRES_OTHER_PROPERTY_IN_NODE], some .propertyAst,
            .Error, (List.range n.refCount).map (fun j => .nodeRef n.path j),
            some [], [propName, "#interrupt-cells",
              "/" ++ String.intercalate "/" (n.path.drop 1)]⟩])
    ∧ (∀ n c, env.resolve v = some n → n.cellsProperty = some (some c) →
        rest.length < c →
        ieWalk env propName (v :: rest) i =
          [⟨[.INTERRUPTS_VALUE_CELL_MISS_MATCH], some (.flatValueAt i), .Error,
            [.cellsPropertyAst n.path], some [], [propName, toString c]⟩])
    ∧ (∀ n c, env.resolve v = some n → n.cellsProperty = some (some c) →
        c ≤ rest.length →
        ieWalk env propName (v :: rest) i =
          ieWalk env propName (rest.drop c) (i + c + 1))
    ∧ (∀ flat : List IEVal, flat ≠ [] →
        interruptsExtendedCheck env false false flat =
          ieWalk env "interrupts-extended" flat 0) := by
  refine ⟨?_, ?_, ?_, ?_, ?_⟩
  · intro h
    rw [ieWalk, h]
  · intro n h hc
    simp only [ieWalk, h, hc]
  · intro n c h hc hlt
    simp only [ieWalk, h, hc]
    rw [if_pos hlt]
  · intro n c h hc hle
    simp only [ieWalk, h, hc]
    rw [if_neg (by omega)]
  · intro flat hne
    unfold interruptsExtendedCheck
    rw [if_neg (by simpa [List.length_eq_zero] using hne)]
    simp

/-- Environment for the C9 witness: no phandle resolves. -/
def c9Env : IEEnv := ⟨fun _ => none⟩

/-- C9 witness: the unresolvable-phandle branch discharged on a
one-value property. -/
theorem c9_interrupts_extended_walk_witness :
    c9Env.resolve ⟨0⟩ = none ∧
    ieWalk c9Env "interrupts-extended" [⟨0⟩] 0 =
      [⟨[.INTERRUPTS_PARENT_NODE_NOT_FOUND], some (.flatValueAt 0), .Error,
        [], none, []⟩] :=
  ⟨rfl, (c9_interrupts_extended_walk c9Env "interrupts-extended" ⟨0⟩ [] 0).1 rfl⟩

/-- C10: when any URI of the file map has no cached parse, no file is
merged at all — for every possible merge function the result is the
fresh root node '/' with no children, properties or definitions, and no
diagnostic is emitted. -/
theorem c10_missing_parse {τ : Type} (fileMap : List String)
    (cache : String → Option τ) (mergeAll : List τ → ContextResult)
    (u : String) (hu : u ∈ fileMap) (hc : cache u = none) :
    contextProcess fileMap cache mergeAll = ⟨CNode.mk "/" [] [] [], []⟩ := by
  unfold contextProcess
  have hany : (fileMap.map (fun file => cache file)).any
      (fun t => t.isNone) = true := by
    rw [List.any_eq_true]
    exact ⟨cache u, List.mem_map_of_mem _ hu, by rw [hc]; rfl⟩
  simp [hany]

/-- C10 witness: a one-file map whose parse is missing, under an
arbitrary merge function that would produce a different root. -/
theorem c10_missing_parse_witness :
    ("a" : String) ∈ ["a"] ∧
    contextProcess ["a"] (fun _ => (none : Option Nat))
      (fun _ => ⟨CNode.mk "other" [] [] [], []⟩) =
      ⟨CNode.mk "/" [] [] [], []⟩ :=
  ⟨by decide,
    c10_missing_parse ["a"] (fun _ => (none : Option Nat))
      (fun _ => ⟨CNode.mk "other" [] [] [], []⟩) "a" (by decide) rfl⟩

end DtsLsp
